import Mathlib

/-!
Verification of the GoDataCleaner ingestion-and-reconciliation core.

This file gives a shallow embedding of the core of the repository
(path normalizer, local scanner classification, reconciliation store,
query layer, remote fetcher dataflow, configuration validation) and
proves or refutes the specification claims about it.

Paths and other Go strings are modelled as lists of characters; the
deployment platform uses the slash separator, so `filepath.ToSlash`
is the identity and is omitted.  Go `int`/`int64` values are modelled
as `Int`.
-/

namespace GoDataCleaner

/-- A Go string / filesystem path, modelled as its character list. -/
abbrev Path := List Char

/-! ## Path normalizer (internal/storage data.go, internal/scanner) -/

/-- Index of the first occurrence of `m` inside `s`, as Go's
`strings.Index` (which returns -1, modelled as `none`, when `m` does
not occur; the empty pattern occurs at index 0). -/
def firstIdxOf (m : Path) : Path → Option Nat
  | [] => if m.isPrefixOf ([] : Path) then some 0 else none
  | c :: rest =>
      if m.isPrefixOf (c :: rest) then some 0
      else (firstIdxOf m rest).map (· + 1)

/-- Go's `strings.Contains m s` (`strings.Index s m >= 0`). -/
def occursIn (m s : Path) : Bool := (firstIdxOf m s).isSome

/-- The wrapped category marker "/movies/". -/
def markerMovies : Path := "/movies/".data

/-- The wrapped category marker "/shows/". -/
def markerShows : Path := "/shows/".data

/-- The wrapped category marker "/4k/". -/
def marker4k : Path := "/4k/".data

/-- The marker list of `extractRelativePath`, in the order the Go code
iterates it: `[]string{"/movies/", "/shows/", "/4k/"}`. -/
def markers : List Path := [markerMovies, markerShows, marker4k]

/-- Helper for `extractRelativePath`: the Go `for _, marker := range
markers` loop body. -/
def extractRelAux (fullPath : Path) : List Path → Path
  | [] => fullPath
  | m :: rest =>
      match firstIdxOf m fullPath with
      | some idx => fullPath.drop idx
      | none => extractRelAux fullPath rest

/-- `extractRelativePath` from internal/storage: iterate the markers in
the fixed order "/movies/", "/shows/", "/4k/"; at the first marker (in
that order) occurring anywhere in the path, return the suffix of the
path from that marker's first occurrence; if no marker occurs, return
the path unchanged. -/
def extractRelativePath (fullPath : Path) : Path :=
  extractRelAux fullPath markers

/-- The literal mount string "/mnt" stripped by `normalizeLocalPath`. -/
def mntStr : Path := "/mnt".data

/-- `normalizeLocalPath` from internal/storage: remove the leading
"/mnt" (4 characters) if the path starts with those characters. -/
def normalizeLocalPath (p : Path) : Path :=
  if mntStr.isPrefixOf p then p.drop 4 else p

/-- The normalized key of a local path as the store computes it at
insert time: mount-prefix strip, then marker extraction. -/
def normalizedKey (p : Path) : Path :=
  extractRelativePath (normalizeLocalPath p)

/-- The earliest occurrence index of any of the three markers in `p`,
written from the specification's words ("scan for the earliest index of
any of the three category markers"). -/
def specEarliestIdx (p : Path) : Option Nat :=
  (markers.filterMap (fun m => firstIdxOf m p)).min?

/-- Marker extraction as the specification words it: the suffix from the
earliest occurrence of any marker, or the path unchanged.  Written from
the spec for comparison with `extractRelativePath`, which is translated
from the source. -/
def specExtractRelativePath (p : Path) : Path :=
  match specEarliestIdx p with
  | some i => p.drop i
  | none => p

/-! ## Scanner classification (internal/scanner/scanner.go) -/

/-- The scanner's configured category labels, in its priority order. -/
def categories : List Path := ["4k".data, "movies".data, "shows".data]

/-- A category label wrapped in separators: "/" + category + "/". -/
def wrapCategory (c : Path) : Path := '/' :: (c ++ "/".data)

/-- Helper for `categorize`: the Go `for _, category := range
s.categories` loop. -/
def categorizeAux (p : Path) : List Path → Path
  | [] => "unknown".data
  | c :: rest =>
      if occursIn (wrapCategory c) p then c else categorizeAux p rest

/-- `categorize` from internal/scanner: the first configured category
whose wrapped form occurs anywhere in the path; "unknown" when none
does.  (`filepath.ToSlash` is the identity on the slash-separated
platform.) -/
def categorize (p : Path) : Path := categorizeAux p categories

/-! ## Data model (internal/models, internal/storage table rows) -/

/-- A record produced by the remote fetcher (models.TorrentFile). -/
structure TorrentFile where
  torrentHash : Path
  torrentName : Path
  fileName : Path
  filePath : Path
  size : Int
deriving DecidableEq

/-- A record produced by the local scanner (models.LocalFile). -/
structure LocalFile where
  filePath : Path
  fileName : Path
  size : Int
  category : Path
deriving DecidableEq

/-- A row of the `torrent_files` table.  The auto-increment `id` column
is the row's position in the list (insertion order); `created_at` is
environmental and not modelled. -/
structure TorrentRow where
  torrentHash : Path
  torrentName : Path
  fileName : Path
  filePath : Path
  relativePath : Path
  size : Int
deriving DecidableEq

/-- A row of the `local_files` table.  `file_path` carries a UNIQUE
constraint; the auto-increment `id` column is the row's position in the
list (insertion order). -/
structure LocalRow where
  filePath : Path
  fileName : Path
  relativePath : Path
  size : Int
  category : Path
deriving DecidableEq

/-- A record returned by the orphan query (models.OrphanFile). -/
structure OrphanFile where
  filePath : Path
  fileName : Path
  size : Int
  category : Path
deriving DecidableEq

/-- The two tables of the reconciliation store, each in insertion
(rowid) order. -/
structure StorageState where
  torrentRows : List TorrentRow
  localRows : List LocalRow
deriving DecidableEq

/-! ## Inserts and clears (internal/storage data.go) -/

/-- The row stored for one remote record by `InsertTorrentFiles`:
`relative_path` is `extractRelativePath(file.FilePath)` computed at
insert time. -/
def torrentFileToRow (f : TorrentFile) : TorrentRow :=
  { torrentHash := f.torrentHash
    torrentName := f.torrentName
    fileName := f.fileName
    filePath := f.filePath
    relativePath := extractRelativePath f.filePath
    size := f.size }

/-- The row stored for one local record by `InsertLocalFiles`: the path
is mount-stripped once by `normalizeLocalPath`, and `relative_path` is
`extractRelativePath` of that normalized path. -/
def localFileToRow (f : LocalFile) : LocalRow :=
  let np := normalizeLocalPath f.filePath
  { filePath := np
    fileName := f.fileName
    relativePath := extractRelativePath np
    size := f.size
    category := f.category }

/-- `InsertTorrentFiles` on the success path: plain appends, no
uniqueness constraint. -/
def insertTorrentFiles (st : StorageState) (files : List TorrentFile) : StorageState :=
  { st with torrentRows := st.torrentRows ++ files.map torrentFileToRow }

/-- models.QueryOptions. -/
structure QueryOptions where
  page : Int
  perPage : Int
  sort : Path
  order : Path
  search : Path
  category : Path
deriving DecidableEq

/-- `normalizeQueryOptions`: default page to 1, per-page to 100,
cap per-page at 1000, and force order to "asc" unless it is exactly
"asc" or "desc". -/
def normalizeQueryOptions (o : QueryOptions) : QueryOptions :=
  { o with
    page := if o.page < 1 then 1 else o.page
    perPage := if o.perPage < 1 then 100 else if o.perPage > 1000 then 1000 else o.perPage
    order := if o.order = ("asc").data ∨ o.order = ("desc").data then o.order else ("asc").data }

/-- ASCII lower-casing of one character, as SQLite's default
case-insensitive LIKE folds the ASCII range. -/
def asciiToLower (c : Char) : Char :=
  if 'A' ≤ c ∧ c ≤ 'Z' then Char.ofNat (c.toNat + 32) else c

/-- SQLite `column LIKE '%pat%'`: case-insensitive (ASCII) substring
match. -/
def likeContains (pat s : Path) : Bool :=
  occursIn (pat.map asciiToLower) (s.map asciiToLower)

/-- The WHERE conditions built from the search and category options for
a local row (used identically by the local-files query and, on the
`l.` columns, by the orphan query).  An empty option contributes no
condition. -/
def queryFilters (o : QueryOptions) (r : LocalRow) : Bool :=
  (o.search.isEmpty || (likeContains o.search r.fileName || likeContains o.search r.filePath)) &&
  (o.category.isEmpty || decide (r.category = o.category))

/-- The WHERE condition of `GetTorrentFiles` (search only). -/
def torrentQueryFilter (o : QueryOptions) (r : TorrentRow) : Bool :=
  o.search.isEmpty || (likeContains o.search r.fileName || likeContains o.search r.filePath)

/-- `t.relative_path IS NULL` after `LEFT JOIN torrent_files t ON
l.relative_path = t.relative_path`: the local row has no remote row
sharing its normalized key.  A local row with k > 0 matching remote
rows appears k times in the join, never with a NULL right side, so it
is excluded entirely; a local row with no match appears exactly once
with a NULL right side.  Hence both the orphan SELECT and the orphan
COUNT see each orphan local row exactly once. -/
def isOrphan (ts : List TorrentRow) (l : LocalRow) : Bool :=
  !(ts.any (fun t => decide (t.relativePath = l.relativePath)))

/-- Sortable columns of `local_files` (and of the `l.` columns of the
orphan query, whose whitelist maps the same four names). -/
inductive LocalCol
  | colPath
  | colName
  | colSize
  | colCategory
deriving DecidableEq

/-- Sortable columns of `torrent_files`. -/
inductive TorrentCol
  | colHash
  | colTorrentName
  | colName
  | colPath
  | colSize
deriving DecidableEq

/-- allowedLocalColumns: the whitelist map for local-file sorting. -/
def allowedLocalColumns : List (Path × LocalCol) :=
  [(("file_path").data, .colPath), (("file_name").data, .colName),
   (("size").data, .colSize), (("category").data, .colCategory)]

/-- allowedOrphanColumns: the whitelist map for orphan sorting; the
same four keys, mapped to the `l.`-qualified columns. -/
def allowedOrphanColumns : List (Path × LocalCol) :=
  [(("file_path").data, .colPath), (("file_name").data, .colName),
   (("size").data, .colSize), (("category").data, .colCategory)]

/-- allowedTorrentColumns: the whitelist map for torrent-file sorting. -/
def allowedTorrentColumns : List (Path × TorrentCol) :=
  [(("torrent_hash").data, .colHash), (("torrent_name").data, .colTorrentName),
   (("file_name").data, .colName), (("file_path").data, .colPath),
   (("size").data, .colSize)]

/-- Look a caller-supplied column name up in a whitelist map. -/
def lookupCol (wl : List (Path × α)) (s : Path) : Option α :=
  (wl.find? (fun e => decide (e.1 = s))).map (·.2)

/-- Byte-wise (code point) lexicographic order on strings, SQLite's
default TEXT collation. -/
def pathLe : Path → Path → Bool
  | [], _ => true
  | _ :: _, [] => false
  | a :: as, b :: bs => if a = b then pathLe as bs else decide (a.toNat ≤ b.toNat)

/-- The ordering key of one whitelisted local column. -/
def localColLe : LocalCol → LocalRow → LocalRow → Bool
  | .colPath, a, b => pathLe a.filePath b.filePath
  | .colName, a, b => pathLe a.fileName b.fileName
  | .colSize, a, b => decide (a.size ≤ b.size)
  | .colCategory, a, b => pathLe a.category b.category

/-- The ordering key of one whitelisted torrent column. -/
def torrentColLe : TorrentCol → TorrentRow → TorrentRow → Bool
  | .colHash, a, b => pathLe a.torrentHash b.torrentHash
  | .colTorrentName, a, b => pathLe a.torrentName b.torrentName
  | .colName, a, b => pathLe a.fileName b.fileName
  | .colPath, a, b => pathLe a.filePath b.filePath
  | .colSize, a, b => decide (a.size ≤ b.size)

/-- Reverse a comparator when the direction is "desc". -/
def dirLe (order : Path) (le : α → α → Bool) : α → α → Bool :=
  if order = ("desc").data then (fun a b => le b a) else le

/-- Stable insertion of `a` into `l` under `le`. -/
def insertLe (le : α → α → Bool) (a : α) : List α → List α
  | [] => [a]
  | b :: t => if le a b then a :: b :: t else b :: insertLe le a t

/-- Stable insertion sort: the deterministic model of `ORDER BY`.
SQLite leaves the relative order of rows with equal keys unspecified;
the theorems below that depend on order either use distinct keys or
state only key-sortedness / permutation facts, which hold for any
order the engine picks. -/
def sortByLe (le : α → α → Bool) : List α → List α
  | [] => []
  | a :: t => insertLe le a (sortByLe le t)

/-- "ORDER BY l.size DESC", the orphan query's default order. -/
def sizeDescLe (a b : LocalRow) : Bool := decide (b.size ≤ a.size)

/-- The ORDER BY step shared by the three queries: if the
caller-supplied sort name is non-empty and whitelisted, sort by that
column in the requested direction; otherwise apply the query's default
order (`none` models `ORDER BY id ASC`, the insertion order, which is
the identity on the row list). -/
def applySort (wl : List (Path × β)) (colLe : β → γ → γ → Bool)
    (defLe : Option (γ → γ → Bool)) (o : QueryOptions)
    (filtered : List γ) : List γ :=
  match (if o.sort.isEmpty then none else lookupCol wl o.sort) with
  | some c => sortByLe (dirLe o.order (colLe c)) filtered
  | none =>
      match defLe with
      | some le => sortByLe le filtered
      | none => filtered

/-- Two's-complement wrap-around of Go's 64-bit `int` arithmetic: the
representative of `n` modulo 2^64 lying in [-2^63, 2^63).  The literals
are 2^63 and 2^64. -/
def wrap64 (n : Int) : Int :=
  (n + 9223372036854775808) % 18446744073709551616 - 9223372036854775808

/-- The LIMIT/OFFSET step: `LIMIT perPage OFFSET (page-1)*perPage`.
The offset is computed in Go `int` arithmetic, which is 64-bit on every
build target and wraps on overflow, so each operation is `wrap64`ed
(the subtraction first, then the product).  SQLite treats a negative
OFFSET bound parameter as 0, which `Int.toNat` models exactly.  The
LIMIT parameter is the normalized per-page value, always in 1..1000,
so SQLite's negative-LIMIT ("no limit") case cannot arise. -/
def paginate (page perPage : Int) (l : List α) : List α :=
  (l.drop (wrap64 (wrap64 (page - 1) * perPage)).toNat).take perPage.toNat

/-- The rows selected by `GetLocalFiles` (before projection to
models.LocalFile, which keeps all four selected columns), and the
total count.  The COUNT query runs on the filtered rows before LIMIT
and OFFSET; the ORDER BY clause is `id ASC` (insertion order) unless
the sort name is whitelisted. -/
def getLocalFiles (st : StorageState) (opts : QueryOptions) : List LocalRow × Nat :=
  let o := normalizeQueryOptions opts
  let filtered := st.localRows.filter (queryFilters o)
  (paginate o.page o.perPage (applySort allowedLocalColumns localColLe none o filtered),
    filtered.length)

/-- The rows selected by `GetTorrentFiles`, and the total count. -/
def getTorrentFiles (st : StorageState) (opts : QueryOptions) : List TorrentRow × Nat :=
  let o := normalizeQueryOptions opts
  let filtered := st.torrentRows.filter (torrentQueryFilter o)
  (paginate o.page o.perPage (applySort allowedTorrentColumns torrentColLe none o filtered),
    filtered.length)

/-- The local rows selected by `GetOrphanFiles` (before projection to
models.OrphanFile), and the total count.  The base condition is the
anti-join `t.relative_path IS NULL`; search and category filters apply
to the local row's columns; the default order is `l.size DESC`. -/
def getOrphanRows (st : StorageState) (opts : QueryOptions) : List LocalRow × Nat :=
  let o := normalizeQueryOptions opts
  let filtered := st.localRows.filter (fun l => isOrphan st.torrentRows l && queryFilters o l)
  (paginate o.page o.perPage
      (applySort allowedOrphanColumns localColLe (some sizeDescLe) o filtered),
    filtered.length)

/-- The projection `SELECT l.file_path, l.file_name, l.size,
l.category` applied to a selected orphan row. -/
def localRowToOrphanFile (l : LocalRow) : OrphanFile :=
  { filePath := l.filePath, fileName := l.fileName, size := l.size, category := l.category }

/-- `GetOrphanFiles` as the API returns it. -/
def getOrphanFiles (st : StorageState) (opts : QueryOptions) : List OrphanFile × Nat :=
  let r := getOrphanRows st opts
  (r.1.map localRowToOrphanFile, r.2)

/-- `totalPages` from internal/web: `(total + perPage - 1) / perPage`
in integer arithmetic.  `total` is a row count and `perPage` is
validated to 1..1000, both non-negative, so `Nat` is faithful to the
Go int64 arithmetic. -/
def totalPages (total perPage : Nat) : Nat := (total + perPage - 1) / perPage

/-! ## Remote fetcher dataflow (internal/qbittorrent/client.go) -/

/-- models.Torrent: one remote collection. -/
structure Torrent where
  hash : Path
  name : Path
  size : Int
  savePath : Path
deriving DecidableEq

/-- `SyncAll`'s observable outcome.  The fan-out uses an errgroup
bounded by `maxWorkers`; the worker ceiling and goroutine scheduling
affect only the interleaving on the `files` channel (whose writers are
serialized by a mutex), not which file records and errors are
delivered, so the model fixes the listing order.  The dataflow is:

* a failure of the initial `GetTorrents` listing sends that one error
  and stops — no file records are produced;
* each collection is fetched once; a per-collection fetch failure sends
  its error non-blockingly and the worker returns nil, so the other
  collections are still fetched;
* every file of every successfully fetched collection is sent.

The `errs` channel is created with buffer capacity 1 and every error
send is non-blocking (`select` with a `default` branch that drops the
error).  Modelled from the spec: the orchestrator that consumes
`SyncAll` is under cmd/, not in src/; per spec section 7, when the
bounded error channel already holds a pending error "only the first is
kept", so the model keeps the first per-collection error and drops
later ones. -/
def syncAllModel (listing : Except Path (List Torrent))
    (fetch : Torrent → Except Path (List TorrentFile)) :
    List TorrentFile × List Path :=
  match listing with
  | .error e => ([], [e])
  | .ok ts =>
      ts.foldl
        (fun acc t =>
          match fetch t with
          | .ok fs => (acc.1 ++ fs, acc.2)
          | .error e => (acc.1, if acc.2.isEmpty then [e] else acc.2))
        ([], [])

/-! ## Configuration validation (internal/config/config.go) and the
client constructor (internal/qbittorrent/client.go) -/

/-- The configuration fields `Config.Validate` inspects. -/
structure Config where
  localPort : Int
  qbPort : Int
  sqlitePath : Path
  localPath : Path
  maxWorkers : Int
  batchSize : Int
deriving DecidableEq

/-- The validation errors, in the order `Validate` checks for them. -/
inductive ConfigError
  | invalidLocalPort
  | invalidQbPort
  | emptySqlitePath
  | emptyLocalPath
  | invalidMaxWorkers
  | invalidBatchSize
deriving DecidableEq

/-- `isValidPort`. -/
def isValidPort (port : Int) : Bool := decide (1 ≤ port) && decide (port ≤ 65535)

/-- `Config.Validate`: the sequence of checks, stopping at the first
failure.  It runs before any I/O begins (`Load` calls it before any
component is constructed). -/
def validate (c : Config) : Except ConfigError Unit :=
  if !isValidPort c.localPort then .error .invalidLocalPort
  else if !isValidPort c.qbPort then .error .invalidQbPort
  else if c.sqlitePath.isEmpty then .error .emptySqlitePath
  else if c.localPath.isEmpty then .error .emptyLocalPath
  else if c.maxWorkers < 1 then .error .invalidMaxWorkers
  else if c.batchSize < 1 then .error .invalidBatchSize
  else .ok ()

/-- The observable client configuration `NewClient` produces (the HTTP
transport settings are environmental). -/
structure Client where
  maxWorkers : Int
deriving DecidableEq

/-- `NewClient`: fails only on an empty host; a non-positive
`maxWorkers` is silently replaced by the default 10. -/
def newClient (host : Path) (maxWorkers : Int) : Except Unit Client :=
  if host.isEmpty then .error ()
  else .ok { maxWorkers := if maxWorkers ≤ 0 then 10 else maxWorkers }

/-! ## Helper lemmas -/

theorem insertLe_perm (le : α → α → Bool) (a : α) (l : List α) :
    (insertLe le a l).Perm (a :: l) := by
  induction l with
  | nil => simp [insertLe]
  | cons b t ih =>
      by_cases h : le a b = true
      · simp [insertLe, h]
      · have he : insertLe le a (b :: t) = b :: insertLe le a t := by
          simp [insertLe, h]
        rw [he]
        exact ((ih.cons b).trans (List.Perm.swap a b t))

theorem sortByLe_perm (le : α → α → Bool) (l : List α) :
    (sortByLe le l).Perm l := by
  induction l with
  | nil => simp [sortByLe]
  | cons a t ih => exact (insertLe_perm le a (sortByLe le t)).trans (ih.cons a)

theorem length_sortByLe (le : α → α → Bool) (l : List α) :
    (sortByLe le l).length = l.length :=
  (sortByLe_perm le l).length_eq

theorem firstIdxOf_of_starts {m s : Path} (h : m.isPrefixOf s = true) :
    firstIdxOf m s = some 0 := by
  cases s <;> simp [firstIdxOf, h]

theorem prefix_drop_of_firstIdxOf {m s : Path} {i : Nat}
    (h : firstIdxOf m s = some i) : m.isPrefixOf (s.drop i) = true := by
  induction s generalizing i with
  | nil =>
      by_cases hp : m.isPrefixOf ([] : Path) = true
      · simp [firstIdxOf, hp] at h
        subst h
        simpa using hp
      · simp [firstIdxOf, hp] at h
  | cons c rest ih =>
      by_cases hp : m.isPrefixOf (c :: rest) = true
      · simp [firstIdxOf, hp] at h
        subst h
        simpa using hp
      · simp only [firstIdxOf] at h
        rw [if_neg (by simpa using hp)] at h
        rw [Option.map_eq_some'] at h
        rcases h with ⟨j, hj, rfl⟩
        simpa using ih hj

theorem occursIn_of_occursIn_drop {m s : Path} {n : Nat}
    (h : occursIn m (s.drop n) = true) : occursIn m s = true := by
  induction n generalizing s with
  | zero => simpa using h
  | succ n ih =>
      cases s with
      | nil => simpa using h
      | cons c rest =>
          have hrest : occursIn m rest = true := ih (by simpa using h)
          unfold occursIn at hrest ⊢
          by_cases hp : m.isPrefixOf (c :: rest) = true
          · simp [firstIdxOf, hp]
          · simp only [firstIdxOf]
            rw [if_neg (by simpa using hp)]
            simpa using hrest

theorem firstIdxOf_drop_none {m s : Path} {n : Nat}
    (h : firstIdxOf m s = none) : firstIdxOf m (s.drop n) = none := by
  cases h' : firstIdxOf m (s.drop n) with
  | none => rfl
  | some i =>
      have : occursIn m s = true :=
        occursIn_of_occursIn_drop (n := n) (by simp [occursIn, h'])
      simp [occursIn, h] at this

/-- Unfolded form of `extractRelativePath`: the markers are tried in
list order, each at its first occurrence. -/
theorem extractRelativePath_eq (p : Path) :
    extractRelativePath p =
      match firstIdxOf markerMovies p with
      | some i => p.drop i
      | none =>
        match firstIdxOf markerShows p with
        | some i => p.drop i
        | none =>
          match firstIdxOf marker4k p with
          | some i => p.drop i
          | none => p := rfl

theorem extractRelativePath_idem (p : Path) :
    extractRelativePath (extractRelativePath p) = extractRelativePath p := by
  rw [extractRelativePath_eq p]
  cases h1 : firstIdxOf markerMovies p with
  | some i =>
      rw [extractRelativePath_eq]
      rw [firstIdxOf_of_starts (prefix_drop_of_firstIdxOf h1)]
      simp
  | none =>
      cases h2 : firstIdxOf markerShows p with
      | some i =>
          rw [extractRelativePath_eq]
          rw [firstIdxOf_drop_none h1,
            firstIdxOf_of_starts (prefix_drop_of_firstIdxOf h2)]
          simp
      | none =>
          cases h3 : firstIdxOf marker4k p with
          | some i =>
              rw [extractRelativePath_eq]
              rw [firstIdxOf_drop_none h1, firstIdxOf_drop_none h2,
                firstIdxOf_of_starts (prefix_drop_of_firstIdxOf h3)]
              simp
          | none =>
              rw [extractRelativePath_eq]
              rw [h1, h2, h3]

theorem totalPages_ge {t p : Nat} (hp : 1 ≤ p) : t ≤ p * totalPages t p := by
  unfold totalPages
  have hd := Nat.div_add_mod (t + p - 1) p
  have hm : (t + p - 1) % p < p := Nat.mod_lt _ (by omega)
  generalize hq : (t + p - 1) / p = q at hd ⊢
  generalize hr : (t + p - 1) % p = r at hd hm
  generalize hpq : p * q = pq at hd ⊢
  omega

theorem totalPages_min {t p k : Nat} (hp : 1 ≤ p) (h : t ≤ p * k) :
    totalPages t p ≤ k := by
  unfold totalPages
  rw [Nat.div_le_iff_le_mul_add_pred (by omega)]
  generalize hpk : p * k = pk at h ⊢
  omega

theorem normalizeQueryOptions_search (o : QueryOptions) :
    (normalizeQueryOptions o).search = o.search := rfl

theorem normalizeQueryOptions_category (o : QueryOptions) :
    (normalizeQueryOptions o).category = o.category := rfl

theorem normalizeQueryOptions_page {o : QueryOptions} (h : 1 ≤ o.page) :
    (normalizeQueryOptions o).page = o.page := by
  show (if o.page < 1 then 1 else o.page) = o.page
  rw [if_neg (by omega)]

theorem normalizeQueryOptions_perPage {o : QueryOptions}
    (h1 : 1 ≤ o.perPage) (h2 : o.perPage ≤ 1000) :
    (normalizeQueryOptions o).perPage = o.perPage := by
  show (if o.perPage < 1 then 100 else if o.perPage > 1000 then 1000 else o.perPage) = o.perPage
  rw [if_neg (by omega), if_neg (by omega)]

theorem queryFilters_trivial {o : QueryOptions} (hs : o.search = [])
    (hc : o.category = []) (r : LocalRow) : queryFilters o r = true := by
  simp [queryFilters, hs, hc]

theorem applySort_perm (wl : List (Path × β)) (colLe : β → γ → γ → Bool)
    (defLe : Option (γ → γ → Bool)) (o : QueryOptions) (filtered : List γ) :
    (applySort wl colLe defLe o filtered).Perm filtered := by
  unfold applySort
  cases (if o.sort.isEmpty then none else lookupCol wl o.sort) with
  | some c => exact sortByLe_perm _ _
  | none =>
      cases defLe with
      | some le => exact sortByLe_perm _ _
      | none => exact List.Perm.refl _

theorem wrap64_eq_self {n : Int} (h1 : -9223372036854775808 ≤ n)
    (h2 : n < 9223372036854775808) : wrap64 n = n := by
  unfold wrap64
  omega

theorem paginate_all {l : List α} {page perPage : Int} (hpage : page = 1)
    (hlen : l.length ≤ perPage.toNat) : paginate page perPage l = l := by
  subst hpage
  unfold paginate
  have h1 : wrap64 ((1 : Int) - 1) = 0 := by unfold wrap64; omega
  have h0 : (wrap64 (wrap64 ((1 : Int) - 1) * perPage)).toNat = 0 := by
    rw [h1, Int.zero_mul]
    have h2 : wrap64 0 = 0 := by unfold wrap64; omega
    rw [h2]
    rfl
  rw [h0, List.drop_zero]
  exact List.take_of_length_le hlen

theorem paginate_nil {l : List α} {page perPage : Int}
    (h : l.length ≤ (wrap64 (wrap64 (page - 1) * perPage)).toNat) :
    paginate page perPage l = [] := by
  unfold paginate
  rw [List.drop_of_length_le h]
  simp

theorem isOrphan_iff {ts : List TorrentRow} {l : LocalRow} :
    isOrphan ts l = true ↔ ∀ t ∈ ts, t.relativePath ≠ l.relativePath := by
  simp [isOrphan]

theorem perm_toFinset {α : Type _} [DecidableEq α] {l₁ l₂ : List α}
    (h : l₁.Perm l₂) : l₁.toFinset = l₂.toFinset := by
  ext a
  simp [List.mem_toFinset, h.mem_iff]

/-! ## Claim C1 -/

/-- C1: with no search or category filter, page 1 and a per-page large
enough (within the 1..1000 bound) to hold every result, the orphan
query returns exactly the orphan local rows, each once per local row
(a permutation of the filtered local inventory), and the set of
normalized keys of the returned rows is exactly the set difference
L \ R of the local and remote normalized-key sets — duplicate remote
rows sharing one key cannot change either fact. -/
theorem claim_C1 (st : StorageState) (opts : QueryOptions)
    (hs : opts.search = []) (hc : opts.category = [])
    (hpage : opts.page = 1) (hpp1 : 1 ≤ opts.perPage) (hpp2 : opts.perPage ≤ 1000)
    (hall : (st.localRows.filter (isOrphan st.torrentRows)).length ≤ opts.perPage.toNat) :
    ((getOrphanRows st opts).1).Perm (st.localRows.filter (isOrphan st.torrentRows)) ∧
    ((getOrphanRows st opts).1.map (fun l => l.relativePath)).toFinset =
      (st.localRows.map (fun l => l.relativePath)).toFinset \
        (st.torrentRows.map (fun t => t.relativePath)).toFinset := by
  set o := normalizeQueryOptions opts with ho
  have hos : o.search = [] := by rw [ho, normalizeQueryOptions_search, hs]
  have hoc : o.category = [] := by rw [ho, normalizeQueryOptions_category, hc]
  have hfeq : st.localRows.filter (fun l => isOrphan st.torrentRows l && queryFilters o l)
      = st.localRows.filter (isOrphan st.torrentRows) := by
    apply List.filter_congr
    intro a _
    rw [queryFilters_trivial hos hoc]
    simp
  have hget : getOrphanRows st opts =
      (paginate o.page o.perPage
        (applySort allowedOrphanColumns localColLe (some sizeDescLe) o
          (st.localRows.filter (fun l => isOrphan st.torrentRows l && queryFilters o l))),
      (st.localRows.filter (fun l => isOrphan st.torrentRows l && queryFilters o l)).length) := rfl
  have hperm : (applySort allowedOrphanColumns localColLe (some sizeDescLe) o
      (st.localRows.filter (isOrphan st.torrentRows))).Perm
      (st.localRows.filter (isOrphan st.torrentRows)) := applySort_perm _ _ _ _ _
  have hpp : o.perPage = opts.perPage := by
    rw [ho, normalizeQueryOptions_perPage hpp1 hpp2]
  have hpage' : o.page = 1 := by
    rw [ho, normalizeQueryOptions_page (by omega)]
    exact hpage
  have hrows : (getOrphanRows st opts).1 =
      applySort allowedOrphanColumns localColLe (some sizeDescLe) o
        (st.localRows.filter (isOrphan st.torrentRows)) := by
    rw [hget]
    show paginate o.page o.perPage _ = _
    rw [hfeq]
    exact paginate_all hpage' (by rw [hperm.length_eq, hpp]; exact hall)
  constructor
  · rw [hrows]
    exact hperm
  · rw [hrows, perm_toFinset (hperm.map (fun l => l.relativePath))]
    ext k
    simp only [List.mem_toFinset, List.mem_map, List.mem_filter, Finset.mem_sdiff]
    constructor
    · rintro ⟨l, ⟨hl, horph⟩, rfl⟩
      refine ⟨⟨l, hl, rfl⟩, ?_⟩
      rintro ⟨t, ht, heq⟩
      exact isOrphan_iff.mp horph t ht heq
    · rintro ⟨⟨l, hl, rfl⟩, hnR⟩
      refine ⟨l, ⟨hl, isOrphan_iff.mpr ?_⟩, rfl⟩
      intro t ht heq
      exact hnR ⟨t, ht, heq⟩

/-- Witness for C1: one remote inventory with a duplicated key
"/movies/a", a local inventory whose keys are "/movies/a" and
"/shows/b"; the orphan query returns exactly the "/shows/b" row. -/
theorem claim_C1_witness :
    ((getOrphanRows
        { torrentRows :=
            [{ torrentHash := ("h1").data, torrentName := ("t1").data,
               fileName := ("a").data, filePath := ("/movies/a").data,
               relativePath := ("/movies/a").data, size := 1 },
             { torrentHash := ("h2").data, torrentName := ("t2").data,
               fileName := ("a").data, filePath := ("/d/movies/a").data,
               relativePath := ("/movies/a").data, size := 1 }],
          localRows :=
            [{ filePath := ("/movies/a").data, fileName := ("a").data,
               relativePath := ("/movies/a").data, size := 100, category := ("movies").data },
             { filePath := ("/shows/b").data, fileName := ("b").data,
               relativePath := ("/shows/b").data, size := 200, category := ("shows").data }] }
        { page := 1, perPage := 10, sort := [], order := [], search := [], category := [] }).1).Perm
      [{ filePath := ("/shows/b").data, fileName := ("b").data,
         relativePath := ("/shows/b").data, size := 200, category := ("shows").data }] := by
  have h := claim_C1
    { torrentRows :=
        [{ torrentHash := ("h1").data, torrentName := ("t1").data,
           fileName := ("a").data, filePath := ("/movies/a").data,
           relativePath := ("/movies/a").data, size := 1 },
         { torrentHash := ("h2").data, torrentName := ("t2").data,
           fileName := ("a").data, filePath := ("/d/movies/a").data,
           relativePath := ("/movies/a").data, size := 1 }],
      localRows :=
        [{ filePath := ("/movies/a").data, fileName := ("a").data,
           relativePath := ("/movies/a").data, size := 100, category := ("movies").data },
         { filePath := ("/shows/b").data, fileName := ("b").data,
           relativePath := ("/shows/b").data, size := 200, category := ("shows").data }] }
    { page := 1, perPage := 10, sort := [], order := [], search := [], category := [] }
    rfl rfl rfl (by decide) (by decide) (by decide)
  exact h.1

/-! ## Claim C2 -/

/-- C2, counterexample to the claim as stated.  In
"/4k/a/movies/b" the earliest marker occurrence is "/4k/" at index 0,
so the claim demands the key be the whole path (as
`specExtractRelativePath`, written from the spec's words, computes);
the code instead tries "/movies/" first and returns "/movies/b". -/
theorem claim_C2_counterexample :
    extractRelativePath ("/4k/a/movies/b".data) = ("/movies/b").data ∧
    specExtractRelativePath ("/4k/a/movies/b".data) = ("/4k/a/movies/b").data ∧
    ("/movies/b").data ≠ ("/4k/a/movies/b").data :=
  ⟨by decide, by decide, by decide⟩

/-- C2, amended: the key is computed by trying the three markers in the
fixed order "/movies/", "/shows/", "/4k/"; the first marker in that
order that occurs anywhere in the path wins, and the key is the suffix
of the path from that marker's first occurrence; if no marker occurs
the key is the path unchanged.  (Marker-list order, not earliest
occurrence index, decides between two different markers.) -/
theorem claim_C2 (p : Path) :
    (∀ i, firstIdxOf markerMovies p = some i → extractRelativePath p = p.drop i) ∧
    (firstIdxOf markerMovies p = none →
      ∀ i, firstIdxOf markerShows p = some i → extractRelativePath p = p.drop i) ∧
    (firstIdxOf markerMovies p = none → firstIdxOf markerShows p = none →
      ∀ i, firstIdxOf marker4k p = some i → extractRelativePath p = p.drop i) ∧
    (firstIdxOf markerMovies p = none → firstIdxOf markerShows p = none →
      firstIdxOf marker4k p = none → extractRelativePath p = p) := by
  refine ⟨?_, ?_, ?_, ?_⟩
  · intro i h
    rw [extractRelativePath_eq p, h]
  · intro h1 i h
    rw [extractRelativePath_eq p, h1, h]
  · intro h1 h2 i h
    rw [extractRelativePath_eq p, h1, h2, h]
  · intro h1 h2 h3
    rw [extractRelativePath_eq p, h1, h2, h3]

/-- Witness for C2 at a concrete path containing only "/shows/". -/
theorem claim_C2_witness :
    firstIdxOf markerMovies ("/x/shows/a".data) = none ∧
    firstIdxOf markerShows ("/x/shows/a".data) = some 2 ∧
    extractRelativePath ("/x/shows/a".data) = ("/x/shows/a".data).drop 2 :=
  ⟨by decide, by decide, (claim_C2 _).2.1 (by decide) 2 (by decide)⟩

/-! ## Claim C4 -/

/-- C4, counterexample to the claim as stated: `normalizedKey` is not
idempotent on "/mnt/mnt/x" — the first application strips one "/mnt"
and finds no marker, leaving "/mnt/x"; the second application strips
again, yielding "/x". -/
theorem claim_C4_counterexample :
    normalizedKey ("/mnt/mnt/x".data) = ("/mnt/x").data ∧
    normalizedKey (normalizedKey ("/mnt/mnt/x".data)) = ("/x").data ∧
    normalizedKey (normalizedKey ("/mnt/mnt/x".data)) ≠ normalizedKey ("/mnt/mnt/x".data) :=
  ⟨by decide, by decide, by decide⟩

/-- C4, amended: `normalizedKey` is idempotent on every path whose key
does not itself begin with "/mnt" (in particular on every path
containing a category marker); and it is invariant to the leading
mount prefix on the spec's example. -/
theorem claim_C4 (p : Path) :
    (mntStr.isPrefixOf (normalizedKey p) = false →
      normalizedKey (normalizedKey p) = normalizedKey p) ∧
    normalizedKey ("/mnt/movies/X/f.mkv".data) = normalizedKey ("/movies/X/f.mkv".data) := by
  constructor
  · intro h
    show extractRelativePath (normalizeLocalPath (normalizedKey p)) = normalizedKey p
    rw [normalizeLocalPath, if_neg (by simp [h])]
    exact extractRelativePath_idem (normalizeLocalPath p)
  · decide

/-- Witness for C4 on a marker-bearing path. -/
theorem claim_C4_witness :
    mntStr.isPrefixOf (normalizedKey ("/mnt/movies/a".data)) = false ∧
    normalizedKey (normalizedKey ("/mnt/movies/a".data)) = normalizedKey ("/mnt/movies/a".data) :=
  ⟨by decide, (claim_C4 _).1 (by decide)⟩

/-! ## Claim C5 -/

/-- C5: a path containing a configured marker segment is classified as
a configured category, the first configured label ("4k", then "movies",
then "shows") whose wrapped form occurs winning regardless of where in
the path each marker occurs; a path with no marker segment is
classified "unknown" (the unclassified category). -/
theorem claim_C5 (p : Path) :
    (occursIn (wrapCategory (("4k").data)) p = true → categorize p = ("4k").data) ∧
    (occursIn (wrapCategory (("4k").data)) p = false →
      occursIn (wrapCategory (("movies").data)) p = true → categorize p = ("movies").data) ∧
    (occursIn (wrapCategory (("4k").data)) p = false →
      occursIn (wrapCategory (("movies").data)) p = false →
      occursIn (wrapCategory (("shows").data)) p = true → categorize p = ("shows").data) ∧
    (occursIn (wrapCategory (("4k").data)) p = false →
      occursIn (wrapCategory (("movies").data)) p = false →
      occursIn (wrapCategory (("shows").data)) p = false → categorize p = ("unknown").data) ∧
    ((∃ c ∈ categories, occursIn (wrapCategory c) p = true) → categorize p ∈ categories) := by
  refine ⟨?_, ?_, ?_, ?_, ?_⟩
  · intro h1
    simp [categorize, categorizeAux, categories, h1]
  · intro h1 h2
    simp [categorize, categorizeAux, categories, h1, h2]
  · intro h1 h2 h3
    simp [categorize, categorizeAux, categories, h1, h2, h3]
  · intro h1 h2 h3
    simp [categorize, categorizeAux, categories, h1, h2, h3]
  · rintro ⟨c, hc, hocc⟩
    by_cases h1 : occursIn (wrapCategory (("4k").data)) p = true
    · simp [categorize, categorizeAux, categories, h1]
    · by_cases h2 : occursIn (wrapCategory (("movies").data)) p = true
      · simp [categorize, categorizeAux, categories, h1, h2]
      · by_cases h3 : occursIn (wrapCategory (("shows").data)) p = true
        · simp [categorize, categorizeAux, categories, h1, h2, h3]
        · simp [categories] at hc
          rcases hc with rfl | rfl | rfl <;> simp_all

/-- Witness for C5: a path where both "/movies/" and "/4k/" occur, the
"/4k/" occurrence later in the path; the earliest-configured label
"4k" still wins. -/
theorem claim_C5_witness :
    occursIn (wrapCategory (("4k").data)) ("/movies/x/4k/a".data) = true ∧
    categorize ("/movies/x/4k/a".data) = ("4k").data :=
  ⟨by decide, (claim_C5 _).1 (by decide)⟩

theorem paginate_beyond {α : Type _} {l sortedL : List α}
    (hlen : sortedL.length = l.length)
    {page perPage : Int} (hpage : 1 ≤ page) (hpp : 1 ≤ perPage)
    (hrange : (page - 1) * perPage < 9223372036854775808)
    (h : (totalPages l.length perPage.toNat : Int) < page) :
    paginate page perPage sortedL = [] := by
  have hpm : 0 ≤ page - 1 := by omega
  have hp1 : page - 1 ≤ (page - 1) * perPage := le_mul_of_one_le_right hpm hpp
  have hw1 : wrap64 (page - 1) = page - 1 := wrap64_eq_self (by omega) (by omega)
  have hoff0 : 0 ≤ (page - 1) * perPage := mul_nonneg hpm (by omega)
  have hw2 : wrap64 (wrap64 (page - 1) * perPage) = (page - 1) * perPage := by
    rw [hw1]
    exact wrap64_eq_self (by omega) hrange
  apply paginate_nil
  rw [hlen, hw2]
  have hP : 1 ≤ perPage.toNat := by omega
  have hge : l.length ≤ perPage.toNat * totalPages l.length perPage.toNat :=
    totalPages_ge hP
  have h1 : ((perPage.toNat : Int)) = perPage := by omega
  have h2 : ((totalPages l.length perPage.toNat : Nat) : Int) ≤ page - 1 := by omega
  have h3 : ((l.length : Nat) : Int) ≤
      ((totalPages l.length perPage.toNat : Nat) : Int) * perPage := by
    have hcast : ((l.length : Nat) : Int) ≤
        ((perPage.toNat : Nat) : Int) * ((totalPages l.length perPage.toNat : Nat) : Int) := by
      exact_mod_cast hge
    rw [h1, Int.mul_comm] at hcast
    exact hcast
  have h4 : ((totalPages l.length perPage.toNat : Nat) : Int) * perPage ≤
      (page - 1) * perPage :=
    mul_le_mul_of_nonneg_right h2 (by omega)
  have h5 : ((l.length : Nat) : Int) ≤ (page - 1) * perPage := le_trans h3 h4
  omega

/-! ## Claim C7 -/

/-- C7, counterexample to the claim as stated: pagination offsets are
computed in Go's wrapping 64-bit int arithmetic.  With one stored row,
per-page 1000 and page 2^62 (= 4611686018427387904, a value
`parseQueryOptions` accepts and `normalizeQueryOptions` does not cap),
`total_pages` is 1, far below the page, yet `(page-1)*perPage` wraps to
-1000, SQLite treats the negative OFFSET as 0, and the query returns
the row instead of zero rows. -/
theorem claim_C7_counterexample :
    ((totalPages
        (getLocalFiles
          { torrentRows := [],
            localRows :=
              [{ filePath := ("/a").data, fileName := ("a").data,
                 relativePath := ("/a").data, size := 1, category := ("x").data }] }
          { page := 4611686018427387904, perPage := 1000, sort := [], order := [],
            search := [], category := [] }).2
        ((1000 : Int)).toNat : Int) < 4611686018427387904) ∧
    (getLocalFiles
      { torrentRows := [],
        localRows :=
          [{ filePath := ("/a").data, fileName := ("a").data,
             relativePath := ("/a").data, size := 1, category := ("x").data }] }
      { page := 4611686018427387904, perPage := 1000, sort := [], order := [],
        search := [], category := [] }).1
      = [{ filePath := ("/a").data, fileName := ("a").data,
           relativePath := ("/a").data, size := 1, category := ("x").data }] ∧
    [({ filePath := ("/a").data, fileName := ("a").data,
        relativePath := ("/a").data, size := 1, category := ("x").data } : LocalRow)]
      ≠ ([] : List LocalRow) :=
  ⟨by decide, by decide, by decide⟩

/-- C7, amended: the total returned by a query is the count of the rows
matching the search and category filters, computed independently of
page and per-page; `totalPages` is the exact integer ceiling of total
over per-page (it is at least total/perPage and is the least such
multiplier); and requesting a page beyond `totalPages` yields zero rows
(for each of the local, orphan and remote sources; no error is possible
since pagination only drops rows) provided the offset `(page-1)*perPage`
stays below 2^63 — for larger pages the Go int multiplication wraps,
SQLite clamps the negative offset to 0, and rows are returned. -/
theorem claim_C7 (st : StorageState) (opts : QueryOptions)
    (hpage : 1 ≤ opts.page) (hpp1 : 1 ≤ opts.perPage) (hpp2 : opts.perPage ≤ 1000) :
    (getLocalFiles st opts).2 =
      (st.localRows.filter (queryFilters (normalizeQueryOptions opts))).length ∧
    (∀ p₂ pp₂ : Int,
      (getLocalFiles st { opts with page := p₂, perPage := pp₂ }).2 =
        (getLocalFiles st opts).2) ∧
    (getLocalFiles st opts).2 ≤
      opts.perPage.toNat * totalPages (getLocalFiles st opts).2 opts.perPage.toNat ∧
    (∀ k, (getLocalFiles st opts).2 ≤ opts.perPage.toNat * k →
      totalPages (getLocalFiles st opts).2 opts.perPage.toNat ≤ k) ∧
    ((opts.page - 1) * opts.perPage < 9223372036854775808 →
      (totalPages (getLocalFiles st opts).2 opts.perPage.toNat : Int) < opts.page →
      (getLocalFiles st opts).1 = []) ∧
    ((opts.page - 1) * opts.perPage < 9223372036854775808 →
      (totalPages (getOrphanRows st opts).2 opts.perPage.toNat : Int) < opts.page →
      (getOrphanRows st opts).1 = []) ∧
    ((opts.page - 1) * opts.perPage < 9223372036854775808 →
      (totalPages (getTorrentFiles st opts).2 opts.perPage.toNat : Int) < opts.page →
      (getTorrentFiles st opts).1 = []) := by
  have hP : 1 ≤ opts.perPage.toNat := by omega
  have hop : (normalizeQueryOptions opts).page = opts.page :=
    normalizeQueryOptions_page hpage
  have hopp : (normalizeQueryOptions opts).perPage = opts.perPage :=
    normalizeQueryOptions_perPage hpp1 hpp2
  refine ⟨rfl, fun p₂ pp₂ => rfl, totalPages_ge hP, fun k hk => totalPages_min hP hk,
    ?_, ?_, ?_⟩
  · intro hrange h
    have h' : (totalPages
        (st.localRows.filter (queryFilters (normalizeQueryOptions opts))).length
        opts.perPage.toNat : Int) < opts.page := h
    show paginate (normalizeQueryOptions opts).page (normalizeQueryOptions opts).perPage
      (applySort allowedLocalColumns localColLe none (normalizeQueryOptions opts)
        (st.localRows.filter (queryFilters (normalizeQueryOptions opts)))) = []
    rw [hop, hopp]
    exact paginate_beyond (applySort_perm _ _ _ _ _).length_eq hpage hpp1 hrange h'
  · intro hrange h
    have h' : (totalPages
        (st.localRows.filter (fun l => isOrphan st.torrentRows l &&
          queryFilters (normalizeQueryOptions opts) l)).length
        opts.perPage.toNat : Int) < opts.page := h
    show paginate (normalizeQueryOptions opts).page (normalizeQueryOptions opts).perPage
      (applySort allowedOrphanColumns localColLe (some sizeDescLe) (normalizeQueryOptions opts)
        (st.localRows.filter (fun l => isOrphan st.torrentRows l &&
          queryFilters (normalizeQueryOptions opts) l))) = []
    rw [hop, hopp]
    exact paginate_beyond (applySort_perm _ _ _ _ _).length_eq hpage hpp1 hrange h'
  · intro hrange h
    have h' : (totalPages
        (st.torrentRows.filter (torrentQueryFilter (normalizeQueryOptions opts))).length
        opts.perPage.toNat : Int) < opts.page := h
    show paginate (normalizeQueryOptions opts).page (normalizeQueryOptions opts).perPage
      (applySort allowedTorrentColumns torrentColLe none (normalizeQueryOptions opts)
        (st.torrentRows.filter (torrentQueryFilter (normalizeQueryOptions opts)))) = []
    rw [hop, hopp]
    exact paginate_beyond (applySort_perm _ _ _ _ _).length_eq hpage hpp1 hrange h'

/-- Witness for C7: three local rows, two per page, so two total pages;
page five (offset well inside int64) returns zero rows. -/
theorem claim_C7_witness :
    (((5 : Int) - 1) * 2 < 9223372036854775808) ∧
    ((totalPages
        (getLocalFiles
          { torrentRows := [],
            localRows :=
              [{ filePath := ("/a").data, fileName := ("a").data,
                 relativePath := ("/a").data, size := 1, category := ("x").data },
               { filePath := ("/b").data, fileName := ("b").data,
                 relativePath := ("/b").data, size := 2, category := ("x").data },
               { filePath := ("/c").data, fileName := ("c").data,
                 relativePath := ("/c").data, size := 3, category := ("x").data }] }
          { page := 5, perPage := 2, sort := [], order := [], search := [], category := [] }).2
        ((2 : Int)).toNat : Int) < 5) ∧
    (getLocalFiles
      { torrentRows := [],
        localRows :=
          [{ filePath := ("/a").data, fileName := ("a").data,
             relativePath := ("/a").data, size := 1, category := ("x").data },
           { filePath := ("/b").data, fileName := ("b").data,
             relativePath := ("/b").data, size := 2, category := ("x").data },
           { filePath := ("/c").data, fileName := ("c").data,
             relativePath := ("/c").data, size := 3, category := ("x").data }] }
      { page := 5, perPage := 2, sort := [], order := [], search := [], category := [] }).1 = [] :=
  ⟨by decide, by decide,
    (claim_C7
      { torrentRows := [],
        localRows :=
          [{ filePath := ("/a").data, fileName := ("a").data,
             relativePath := ("/a").data, size := 1, category := ("x").data },
           { filePath := ("/b").data, fileName := ("b").data,
             relativePath := ("/b").data, size := 2, category := ("x").data },
           { filePath := ("/c").data, fileName := ("c").data,
             relativePath := ("/c").data, size := 3, category := ("x").data }] }
      { page := 5, perPage := 2, sort := [], order := [], search := [], category := [] }
      (by decide) (by decide) (by decide)).2.2.2.2.1 (by decide) (by decide)⟩

/-! ## Claim C10 -/

/-- C10: at insert time each local path is mount-stripped exactly once:
the literal 4-character "/mnt" is removed whenever the path starts with
those characters (even when "/mnt" is not a complete segment, as in
"/mntdata/file.mkv" → "data/file.mkv"), and at most once per insert
("/mnt/mnt/x" is stored as "/mnt/x"). -/
theorem claim_C10 :
    (∀ p : Path, mntStr.isPrefixOf p = true → normalizeLocalPath p = p.drop 4) ∧
    (∀ p : Path, mntStr.isPrefixOf p = false → normalizeLocalPath p = p) ∧
    normalizeLocalPath ("/mntdata/file.mkv".data) = ("data/file.mkv").data ∧
    (∀ (fn cat : Path) (sz : Int),
      (localFileToRow
        { filePath := ("/mnt/mnt/x").data, fileName := fn, size := sz, category := cat }).filePath
        = ("/mnt/x").data) ∧
    (∀ f : LocalFile, (localFileToRow f).filePath = normalizeLocalPath f.filePath) := by
  refine ⟨?_, ?_, by decide, ?_, fun f => rfl⟩
  · intro p h
    simp [normalizeLocalPath, h]
  · intro p h
    simp [normalizeLocalPath, h]
  · intro fn cat sz
    show normalizeLocalPath (("/mnt/mnt/x").data) = ("/mnt/x").data
    decide

/-- Witness for C10 at a concrete mount-prefixed path. -/
theorem claim_C10_witness :
    mntStr.isPrefixOf ("/mnt/a".data) = true ∧
    normalizeLocalPath ("/mnt/a".data) = ("/mnt/a".data).drop 4 :=
  ⟨by decide, claim_C10.1 _ (by decide)⟩

/-! ## Claim C3 -/

/-- The fold invariant of `syncAllModel`'s fan-out: files of successful
collections accumulate in order; only the first per-collection error is
kept (the error buffer holds one element). -/
theorem syncAllModel_fold (fetch : Torrent → Except Path (List TorrentFile)) :
    ∀ (ts : List Torrent) (fs : List TorrentFile) (es : List Path),
      ts.foldl
        (fun acc t =>
          match fetch t with
          | .ok fsT => (acc.1 ++ fsT, acc.2)
          | .error e => (acc.1, if acc.2.isEmpty then [e] else acc.2)) (fs, es) =
      (fs ++ ts.flatMap (fun t => match fetch t with | .ok fsT => fsT | .error _ => []),
       if es.isEmpty then
         (ts.filterMap
           (fun t => match fetch t with | .ok _ => none | .error e => some e)).take 1
       else es)
  | [], fs, es => by cases es <;> simp
  | t :: ts, fs, es => by
      rw [List.foldl_cons]
      cases hft : fetch t with
      | ok fsT =>
          simp only [hft]
          rw [syncAllModel_fold fetch ts (fs ++ fsT) es]
          simp [hft, List.append_assoc]
      | error e' =>
          simp only [hft]
          cases es with
          | nil =>
              rw [syncAllModel_fold fetch ts fs _]
              simp [hft]
          | cons x xs =>
              rw [syncAllModel_fold fetch ts fs _]
              simp [hft]

/-- C8, counterexample to the claim as stated: with five collections
where two fail, only one error is recorded (the buffered error channel
holds a single pending error and further non-blocking sends drop), not
one per failed collection. -/
theorem claim_C8_counterexample :
    ((syncAllModel
        (Except.ok
          [{ hash := ("h1").data, name := ("t1").data, size := 0, savePath := ("/d").data },
           { hash := ("h2").data, name := ("t2").data, size := 0, savePath := ("/d").data },
           { hash := ("h3").data, name := ("t3").data, size := 0, savePath := ("/d").data },
           { hash := ("h4").data, name := ("t4").data, size := 0, savePath := ("/d").data },
           { hash := ("h5").data, name := ("t5").data, size := 0, savePath := ("/d").data }])
        (fun t =>
          if t.hash = ("h2").data ∨ t.hash = ("h4").data then Except.error ("boom").data
          else Except.ok
            [{ torrentHash := t.hash, torrentName := t.name, fileName := ("f").data,
               filePath := ("/d/f").data, size := 1 }])).2).length = 1 ∧
    (1 : Nat) ≠ 2 :=
  ⟨by decide, by decide⟩

/-- C8, amended: a failure of the initial collection listing aborts the
whole operation, yielding no file records and that one error; with the
listing successful, a per-collection fetch failure does not abort the
others — the result is the union (concatenation in listing order) of
the files of every successfully fetched collection — and the recorded
errors are the first per-collection failure only (at most one, the
1-slot error buffer dropping later non-blocking sends). -/
theorem claim_C8 (ts : List Torrent)
    (fetch : Torrent → Except Path (List TorrentFile)) (e : Path) :
    syncAllModel (Except.error e) fetch = ([], [e]) ∧
    (syncAllModel (Except.ok ts) fetch).1 =
      ts.flatMap (fun t => match fetch t with | .ok fs => fs | .error _ => []) ∧
    (syncAllModel (Except.ok ts) fetch).2 =
      (ts.filterMap
        (fun t => match fetch t with | .ok _ => none | .error e' => some e')).take 1 := by
  refine ⟨rfl, ?_, ?_⟩
  · show (ts.foldl _ ([], [])).1 = _
    rw [syncAllModel_fold fetch ts [] []]
    simp
  · show (ts.foldl _ ([], [])).2 = _
    rw [syncAllModel_fold fetch ts [] []]
    rfl

/-! ## Claim C9 -/

/-- C9, counterexample to the claim as stated: the qBittorrent client
constructor, given worker count 0, does not fail — it silently
substitutes the default 10. -/
theorem claim_C9_counterexample :
    newClient ("qbt.home").data 0 = Except.ok { maxWorkers := 10 } ∧
    newClient ("qbt.home").data 0 ≠ Except.error () := by
  constructor
  · rfl
  · intro hcontra
    rw [show newClient (("qbt.home").data) 0 = Except.ok { maxWorkers := 10 } from rfl]
      at hcontra
    exact Except.noConfusion hcontra

/-- C9, amended: configuration validation does fail, before any I/O,
on a non-positive worker count or batch size; but the client
constructor is not such a guard — handed a non-positive worker count
directly, it silently substitutes the default 10 rather than
failing. -/
theorem claim_C9 (c : Config) (host : Path) (mw : Int) :
    ((c.maxWorkers < 1 ∨ c.batchSize < 1) → validate c ≠ Except.ok ()) ∧
    (host.isEmpty = false → mw ≤ 0 →
      newClient host mw = Except.ok { maxWorkers := 10 }) := by
  constructor
  · intro hbad hok
    unfold validate at hok
    split_ifs at hok
    simp_all
  · intro hh hmw
    unfold newClient
    rw [if_neg (by simp [hh]), if_pos hmw]

/-- Witness for C9 at a configuration with zero workers and a direct
constructor call with a negative worker count. -/
theorem claim_C9_witness :
    ((0 : Int) < 1 ∨ (5 : Int) < 1) ∧
    validate
        { localPort := 8080, qbPort := 80, sqlitePath := ("db").data,
          localPath := ("p").data, maxWorkers := 0, batchSize := 5 } ≠
      Except.ok () ∧
    ((("qbt.home").data : Path).isEmpty = false) ∧
    newClient ("qbt.home").data (-3) = Except.ok { maxWorkers := 10 } :=
  ⟨Or.inl (by decide),
    (claim_C9
      { localPort := 8080, qbPort := 80, sqlitePath := ("db").data,
        localPath := ("p").data, maxWorkers := 0, batchSize := 5 }
      ("qbt.home").data (-3)).1 (Or.inl (by decide)),
    by decide,
    (claim_C9
      { localPort := 8080, qbPort := 80, sqlitePath := ("db").data,
        localPath := ("p").data, maxWorkers := 0, batchSize := 5 }
      ("qbt.home").data (-3)).2 (by decide) (by decide)⟩

end GoDataCleaner
